import Mathlib

/-
Verification of the simulation and backtesting engine of a quantitative
trading research tool.  The Python sources are embedded shallowly over the
rationals: every money amount, price and quantity is a `ℚ` (the Python code
uses IEEE floats; the spec asks its invariants only "to floating-point
tolerance", and the rational embedding is the exact-arithmetic idealisation
of the same formulas).  Mutation is modelled by explicit state passing.
Fields that no claim observes (wall-clock timestamps, log strings, rolling
return deques, callback lists, threading machinery) are omitted; everything
else follows `src/simulation/portfolio_tracker.py`,
`src/simulation/simulation_engine.py`, `src/strategies/ensemble_strategy.py`
and `src/risk_management/position_sizing.py` line by line.
-/

namespace QuantSim

/-- Trade side, the `side` string field of `Trade` (`'BUY'` / `'SELL'`). -/
inductive Side where
  | BUY : Side
  | SELL : Side
deriving DecidableEq, Repr

/-- `Trade` dataclass of `portfolio_tracker.py` (metadata-only fields —
timestamp, strategy, reason, confidence — are omitted). -/
structure Trade where
  symbol : String
  side : Side
  quantity : ℚ
  price : ℚ
  commission : ℚ
  slippage : ℚ
deriving DecidableEq, Repr

/-- `Trade.total_cost`: `quantity * price + commission + slippage`. -/
def Trade.total_cost (t : Trade) : ℚ :=
  t.quantity * t.price + t.commission + t.slippage

/-- `Trade.net_quantity`: `quantity` for a BUY, `-quantity` for a SELL. -/
def Trade.net_quantity (t : Trade) : ℚ :=
  if t.side = Side.BUY then t.quantity else -t.quantity

/-- `Position` dataclass (entry timestamp and the derived `unrealized_pnl`
cache are omitted; no claim reads them). -/
structure Position where
  symbol : String
  quantity : ℚ
  avg_entry_price : ℚ
  current_price : ℚ
deriving DecidableEq, Repr

/-- `Position.market_value`: `abs(self.quantity) * self.current_price`. -/
def Position.market_value (p : Position) : ℚ :=
  |p.quantity| * p.current_price

/-- The `positions` dict `Dict[str, Position]`, as an association list.
The source only ever inserts a key after an explicit `symbol in
self.positions` miss, so keys never repeat. -/
abbrev Positions := List (String × Position)

/-- Dict lookup `self.positions[symbol]` / `symbol in self.positions`. -/
def lookupPos : Positions → String → Option Position
  | [], _ => none
  | e :: rest, sym => if e.1 = sym then some e.2 else lookupPos rest sym

/-- Dict value overwrite `self.positions[symbol] = pos` for a present key. -/
def setPos (ps : Positions) (sym : String) (pos : Position) : Positions :=
  ps.map (fun e => if e.1 = sym then (sym, pos) else e)

/-- Dict deletion `del self.positions[symbol]` (keys are unique). -/
def erasePos : Positions → String → Positions
  | [], _ => []
  | e :: rest, sym => if e.1 = sym then erasePos rest sym else e :: erasePos rest sym

/-- One entry of `portfolio_history` as built by
`_update_portfolio_history` (timestamp, unrealized P&L, total-return and
drawdown entries omitted; no claim reads them). -/
structure Snapshot where
  total_value : ℚ
  cash : ℚ
  positions_value : ℚ
  num_positions : ℕ
deriving DecidableEq, Repr

/-- `PortfolioTracker` state (trade log and commission/slippage tallies
kept; rolling-return deques omitted). -/
structure PortfolioTracker where
  initial_capital : ℚ
  cash : ℚ
  positions : Positions
  trades : List Trade
  portfolio_history : List Snapshot
  peak_value : ℚ
  max_drawdown : ℚ
  total_commission : ℚ
  total_slippage : ℚ
deriving DecidableEq, Repr

/-- Sum of `position.market_value` over the positions dict — the loop body
of `get_portfolio_value`. -/
def positionsValue (ps : Positions) : ℚ :=
  (ps.map (fun e => e.2.market_value)).sum

/-- `update_market_prices` restricted to one symbol: if the symbol is held,
`update_unrealized_pnl` stores the new `current_price` on the position. -/
def updatePrice (ps : Positions) (sym : String) (price : ℚ) : Positions :=
  match lookupPos ps sym with
  | some _ => ps.map (fun e => if e.1 = sym then (e.1, { e.2 with current_price := price }) else e)
  | none => ps

/-- `update_market_prices(prices)`: fold `updatePrice` over the dict. -/
def updateMarketPrices (pt : PortfolioTracker) (prices : List (String × ℚ)) :
    PortfolioTracker :=
  { pt with positions := prices.foldl (fun ps pr => updatePrice ps pr.1 pr.2) pt.positions }

/-- `get_portfolio_value(current_prices)`: optionally update market prices
(the empty list models passing `None`), then `cash + Σ market_value`. -/
def getPortfolioValueWith (pt : PortfolioTracker) (prices : List (String × ℚ)) : ℚ :=
  let pt1 := updateMarketPrices pt prices
  pt1.cash + positionsValue pt1.positions

/-- `get_portfolio_value()` with no price argument. -/
def getPortfolioValue (pt : PortfolioTracker) : ℚ :=
  pt.cash + positionsValue pt.positions

/-- `get_drawdown(current_prices)`: returns the drawdown and the tracker
with market prices, `peak_value` and `max_drawdown` updated, exactly as the
method mutates `self`.  The empty price list models `current_prices=None`. -/
def getDrawdownWith (pt : PortfolioTracker) (prices : List (String × ℚ)) :
    ℚ × PortfolioTracker :=
  let pt1 := updateMarketPrices pt prices
  let current_value := getPortfolioValue pt1
  let peak1 := if current_value > pt1.peak_value then current_value else pt1.peak_value
  if peak1 > 0 then
    let drawdown := (current_value - peak1) / peak1
    let maxdd := if drawdown < pt1.max_drawdown then drawdown else pt1.max_drawdown
    (drawdown, { pt1 with peak_value := peak1, max_drawdown := maxdd })
  else
    (0, { pt1 with peak_value := peak1 })

/-- The snapshot record `_update_portfolio_history` appends: `total_value`
is `get_portfolio_value()`, `positions_value` is `current_value - cash`. -/
def mkSnapshot (pt : PortfolioTracker) : Snapshot :=
  let current_value := getPortfolioValue pt
  { total_value := current_value
    cash := pt.cash
    positions_value := current_value - pt.cash
    num_positions := pt.positions.length }

/-- `_update_portfolio_history`: builds the snapshot of the current state
(its `drawdown` entry calls `get_drawdown()`, which bumps `peak_value` and
`max_drawdown` as a side effect) and appends it. -/
def updatePortfolioHistory (pt : PortfolioTracker) : PortfolioTracker :=
  let snap := mkSnapshot pt
  let pt1 := (getDrawdownWith pt []).2
  { pt1 with portfolio_history := pt1.portfolio_history ++ [snap] }

/-- `PortfolioTracker.__init__(initial_capital)`: all-cash state, then one
initial call to `_update_portfolio_history`. -/
def mkPortfolioTracker (initial_capital : ℚ) : PortfolioTracker :=
  updatePortfolioHistory
    { initial_capital := initial_capital
      cash := initial_capital
      positions := []
      trades := []
      portfolio_history := []
      peak_value := initial_capital
      max_drawdown := 0
      total_commission := 0
      total_slippage := 0 }

/-- `_process_trade`: debit/credit cash by `trade.total_cost` according to
the side, then rebuild the symbol's position with the volume-weighted
average entry price, deleting it when the resulting quantity is zero. -/
def processTrade (pt : PortfolioTracker) (t : Trade) : PortfolioTracker :=
  let cash1 := if t.side = Side.BUY then pt.cash - t.total_cost else pt.cash + t.total_cost
  let positions1 :=
    match lookupPos pt.positions t.symbol with
    | some position =>
        let old_value := position.quantity * position.avg_entry_price
        let new_value := t.net_quantity * t.price
        let total_quantity := position.quantity + t.net_quantity
        if total_quantity ≠ 0 then
          setPos pt.positions t.symbol
            { position with
              avg_entry_price := (old_value + new_value) / total_quantity
              quantity := total_quantity }
        else
          erasePos pt.positions t.symbol
    | none =>
        if t.net_quantity ≠ 0 then
          pt.positions ++
            [(t.symbol,
              { symbol := t.symbol
                quantity := t.net_quantity
                avg_entry_price := t.price
                current_price := t.price })]
        else
          pt.positions
  { pt with cash := cash1, positions := positions1 }

/-- `execute_trade`: commission and slippage are rates on the gross
notional `quantity * price`; the trade is processed unconditionally,
recorded, and the cost tallies are bumped. -/
def executeTrade (pt : PortfolioTracker) (symbol : String) (side : Side)
    (quantity price commission_rate slippage_rate : ℚ) : PortfolioTracker :=
  let base_value := quantity * price
  let commission := base_value * commission_rate
  let slippage := base_value * slippage_rate
  let t : Trade :=
    { symbol := symbol, side := side, quantity := quantity, price := price
      commission := commission, slippage := slippage }
  let pt1 := processTrade pt t
  { pt1 with
    trades := pt1.trades ++ [t]
    total_commission := pt1.total_commission + commission
    total_slippage := pt1.total_slippage + slippage }

/-! ## Simulation engine (`simulation_engine.py`) -/

/-- `SimulationConfig` (update-interval / speed / step-mode knobs of the
threaded loop are omitted; `step_forward` never reads them). -/
structure SimConfig where
  initial_capital : ℚ
  commission_rate : ℚ
  slippage_rate : ℚ
  max_positions : ℕ
  position_size : ℚ
  max_drawdown_limit : ℚ
  daily_loss_limit : ℚ
deriving DecidableEq, Repr

/-- `SignalType` enum of `base_strategy.py`. -/
inductive SignalType where
  | BUY : SignalType
  | SELL : SignalType
  | HOLD : SignalType
deriving DecidableEq, Repr

/-- `TradingSignal` dataclass (timestamp, reason and metadata omitted). -/
structure TradingSignal where
  signal : SignalType
  confidence : ℚ
  price : ℚ
deriving DecidableEq, Repr

/-- `SimulationEngine._process_signal`: HOLD returns immediately; otherwise
the target quantity is `portfolio_value * position_size / price` (the
`get_portfolio_value({'BTC-USD': price})` call updates market prices as a
side effect first).  A BUY whose full cost exceeds cash is re-sized to the
available cash and dropped below the 0.001 minimum; BUYs also respect
`max_positions`.  A SELL requires an existing long position and is clamped
to its quantity.  The surviving order goes to `execute_trade`. -/
def processSignal (cfg : SimConfig) (pt : PortfolioTracker) (sig : TradingSignal)
    (current_price : ℚ) : PortfolioTracker :=
  if sig.signal = SignalType.HOLD then pt
  else
    let pt1 := updateMarketPrices pt [("BTC-USD", current_price)]
    let portfolio_value := getPortfolioValue pt1
    let position_size_dollars := portfolio_value * cfg.position_size
    let quantity := position_size_dollars / current_price
    if sig.signal = SignalType.BUY then
      let required_cash := quantity * current_price * (1 + cfg.commission_rate + cfg.slippage_rate)
      if required_cash > pt1.cash then
        let quantity2 := pt1.cash / (current_price * (1 + cfg.commission_rate + cfg.slippage_rate))
        if quantity2 < 1 / 1000 then pt1
        else if cfg.max_positions ≤ pt1.positions.length then pt1
        else executeTrade pt1 "BTC-USD" Side.BUY quantity2 current_price
               cfg.commission_rate cfg.slippage_rate
      else if cfg.max_positions ≤ pt1.positions.length then pt1
      else executeTrade pt1 "BTC-USD" Side.BUY quantity current_price
             cfg.commission_rate cfg.slippage_rate
    else
      match lookupPos pt1.positions "BTC-USD" with
      | none => pt1
      | some position =>
          if position.quantity ≤ 0 then pt1
          else executeTrade pt1 "BTC-USD" Side.SELL (min quantity position.quantity)
                 current_price cfg.commission_rate cfg.slippage_rate

/-- `_check_risk_limits`: drawdown check (may stop the run) then the
daily-loss check against the second-to-last snapshot (may pause).  Returns
`(stopped, paused, tracker)`; the tracker carries the price/peak updates
the two `get_*` calls perform on `self.portfolio`. -/
def checkRiskLimits (cfg : SimConfig) (current_price : ℚ) (pt : PortfolioTracker) :
    Bool × Bool × PortfolioTracker :=
  let dd := getDrawdownWith pt [("BTC-USD", current_price)]
  let stopped := dd.1 < -cfg.max_drawdown_limit
  let pt3 := dd.2
  if 1 < pt3.portfolio_history.length then
    let pt4 := updateMarketPrices pt3 [("BTC-USD", current_price)]
    let current_value := getPortfolioValue pt4
    let previous_value :=
      (pt4.portfolio_history.getD (pt4.portfolio_history.length - 2)
        { total_value := 0, cash := 0, positions_value := 0, num_positions := 0 }).total_value
    let daily_return := (current_value - previous_value) / previous_value
    (stopped, daily_return < -cfg.daily_loss_limit, pt4)
  else
    (stopped, false, pt3)

/-- The portfolio pipeline of one `step_forward` bar: update market prices,
fold `_process_signal` over the generated signals (an exception from
`generate_signals` is caught and logged, leaving the bar signal-free), run
the risk checks, then append the portfolio-history snapshot. -/
def stepBarPortfolio (cfg : SimConfig) (current_price : ℚ)
    (sigRes : Except String (List TradingSignal)) (pt : PortfolioTracker) :
    Bool × Bool × PortfolioTracker :=
  let pt1 := updateMarketPrices pt [("BTC-USD", current_price)]
  let pt2 :=
    match sigRes with
    | Except.error _ => pt1
    | Except.ok signals => signals.foldl (fun p s => processSignal cfg p s current_price) pt1
  let checked := checkRiskLimits cfg current_price pt2
  (checked.1, checked.2.1, updatePortfolioHistory checked.2.2)

/-- `SimulationEngine` state (`data` is the close-price series, `none` when
no data was loaded; threading fields and callbacks omitted). -/
structure EngineState where
  portfolio : PortfolioTracker
  is_running : Bool
  is_paused : Bool
  current_date_index : ℕ
  data : Option (List ℚ)
deriving DecidableEq, Repr

/-- `step_forward` with the result of `strategy.generate_signals` passed in
(`Except.error` models an exception escaping the strategy).  Returns the
method's boolean and the updated engine.  `stop_simulation` clears
`is_running`; `pause_simulation` only pauses a still-running engine. -/
def stepForwardWith (cfg : SimConfig) (sigRes : Except String (List TradingSignal))
    (st : EngineState) : Bool × EngineState :=
  match st.data with
  | none => (false, st)
  | some data =>
      if st.is_running = false then (false, st)
      else if data.length ≤ st.current_date_index then (false, { st with is_running := false })
      else
        let current_price := data.getD st.current_date_index 0
        let stepped := stepBarPortfolio cfg current_price sigRes st.portfolio
        (true,
          { st with
            portfolio := stepped.2.2
            is_running := !stepped.1
            is_paused := st.is_paused || (stepped.2.1 && !stepped.1)
            current_date_index := st.current_date_index + 1 })

/-- `step_forward` proper: the strategy is a function of the data prefix
`self.data.iloc[:index+1]` that either returns signals or raises. -/
def stepForward (cfg : SimConfig)
    (strategy : List ℚ → Except String (List TradingSignal)) (st : EngineState) :
    Bool × EngineState :=
  stepForwardWith cfg
    (match st.data with
     | none => Except.ok []
     | some data => strategy (data.take (st.current_date_index + 1)))
    st

/-- A run of the engine over a bar sequence, each bar a close price with
the signals processed on it, through the `step_forward` portfolio
pipeline. -/
def runBars (cfg : SimConfig) (bars : List (ℚ × List TradingSignal))
    (pt : PortfolioTracker) : PortfolioTracker :=
  bars.foldl (fun p bar => (stepBarPortfolio cfg bar.1 (Except.ok bar.2) p).2.2) pt

/-! ## Raw ledger call sequences (for the conservation claims) -/

/-- One call against the public `PortfolioTracker` API: a trade, a market
price update, or a `_update_portfolio_history` snapshot append (the engine
performs the latter once per bar). -/
inductive LedgerOp where
  | trade (symbol : String) (side : Side) (quantity price commission_rate slippage_rate : ℚ)
  | setPrices (prices : List (String × ℚ))
  | snapshot
deriving DecidableEq, Repr

/-- Apply one ledger call. -/
def applyOp (pt : PortfolioTracker) : LedgerOp → PortfolioTracker
  | LedgerOp.trade symbol side quantity price commission_rate slippage_rate =>
      executeTrade pt symbol side quantity price commission_rate slippage_rate
  | LedgerOp.setPrices prices => updateMarketPrices pt prices
  | LedgerOp.snapshot => updatePortfolioHistory pt

/-- Apply a sequence of ledger calls. -/
def runOps (ops : List LedgerOp) (pt : PortfolioTracker) : PortfolioTracker :=
  ops.foldl applyOp pt

/-- Modelled from the spec for comparison only: the signed position value
`Σ position.quantity × position.current_price` the conservation claim
speaks about (the source sums `abs(quantity) * current_price`). -/
def signedPositionsValue (ps : Positions) : ℚ :=
  (ps.map (fun e => e.2.quantity * e.2.current_price)).sum

/-! ## Ensemble voting (`ensemble_strategy.py`) -/

/-- The ensemble parameters `strategy_weights`, `min_consensus` and
`confidence_threshold` read by `_weighted_voting_ensemble`. -/
structure EnsembleConfig where
  strategy_weights : List (String × ℚ)
  min_consensus : ℚ
  confidence_threshold : ℚ
deriving DecidableEq, Repr

/-- `self.strategy_weights.get(strategy_name, 0.0)` (keys are unique). -/
def weightLookup : List (String × ℚ) → String → ℚ
  | [], _ => 0
  | e :: rest, name => if e.1 = name then e.2 else weightLookup rest name

/-- The latest signal of each sub-strategy: strategies with an empty signal
list are skipped, the rest contribute `signals[-1]`. -/
def latestSignals (sub_signals : List (String × List TradingSignal)) :
    List (String × TradingSignal) :=
  sub_signals.filterMap (fun e => (e.2.getLast?).map (fun s => (e.1, s)))

/-- The weighted-vote accumulation loop: each latest signal adds
`weight * confidence` to exactly one of the buy/sell/hold buckets (the
loop's `total_confidence` tally is never read afterwards and is omitted). -/
def voteWeights (ws : List (String × ℚ)) (latest : List (String × TradingSignal)) :
    ℚ × ℚ × ℚ :=
  latest.foldl
    (fun acc e =>
      let w := weightLookup ws e.1 * e.2.confidence
      match e.2.signal with
      | SignalType.BUY => (acc.1 + w, acc.2.1, acc.2.2)
      | SignalType.SELL => (acc.1, acc.2.1 + w, acc.2.2)
      | SignalType.HOLD => (acc.1, acc.2.1, acc.2.2 + w))
    (0, 0, 0)

/-- Ensemble confidence: the mean confidence over the non-HOLD latest
signals, capped at 1, and 0 when every latest signal is HOLD. -/
def ensembleConfidence (latest : List (String × TradingSignal)) : ℚ :=
  let active := latest.filter (fun e =>
    match e.2.signal with
    | SignalType.HOLD => false
    | _ => true)
  if active = [] then 0
  else min 1 ((active.map (fun e => e.2.confidence)).sum / active.length)

/-- The emission tail of `_weighted_voting_ensemble`, after the consensus
gate: pick BUY when the max bucket equals the buy weight (checked first),
else SELL when it equals the sell weight, else no signal; then apply the
confidence threshold and emit one ensemble signal at the latest price. -/
def wveEmit (confidence_threshold : ℚ) (latest : List (String × TradingSignal))
    (latest_price buy_weight sell_weight hold_weight : ℚ) : List TradingSignal :=
  let max_weight := max buy_weight (max sell_weight hold_weight)
  if max_weight = buy_weight then
    let ensemble_confidence := ensembleConfidence latest
    if ensemble_confidence < confidence_threshold then []
    else [{ signal := SignalType.BUY, confidence := ensemble_confidence, price := latest_price }]
  else if max_weight = sell_weight then
    let ensemble_confidence := ensembleConfidence latest
    if ensemble_confidence < confidence_threshold then []
    else [{ signal := SignalType.SELL, confidence := ensemble_confidence, price := latest_price }]
  else []

/-- `_weighted_voting_ensemble`: empty data or no latest signals emit
nothing; a zero max bucket emits nothing; `consensus_strength` is the max
bucket over the sum of all configured weights and is gated by
`min_consensus`; the rest is `wveEmit`. -/
def weightedVotingEnsemble (cfg : EnsembleConfig)
    (sub_signals : List (String × List TradingSignal)) (data : List ℚ) :
    List TradingSignal :=
  if data = [] then []
  else
    let latest := latestSignals sub_signals
    if latest = [] then []
    else
      let vw := voteWeights cfg.strategy_weights latest
      let max_weight := max vw.1 (max vw.2.1 vw.2.2)
      if max_weight = 0 then []
      else
        let consensus_strength := max_weight / (cfg.strategy_weights.map (fun e => e.2)).sum
        if consensus_strength < cfg.min_consensus then []
        else wveEmit cfg.confidence_threshold latest (data.getLastD 0) vw.1 vw.2.1 vw.2.2

/-! ## Kelly position sizing (`position_sizing.py`) -/

/-- `AdvancedPositionSizer._kelly_criterion` under the default
configuration (`kelly_lookback_days = 60`, `min_position_size = 0.01`):
fall back to the minimum size on a short sample (< 10 returns), a one-sided
sample, or a zero average loss; otherwise apply `f = (bp - q)/b` with the
win rate scaled by the signal confidence, scale by 0.25, and clamp to
`[0.01, 0.25]`.  `tail(n)` keeps the last `n` returns. -/
def kellyCriterion (returns : List ℚ) (signal_confidence : ℚ) : ℚ :=
  if returns.length < 10 then 1 / 100
  else
    let recent_returns := returns.drop (returns.length - 60)
    let positive_returns := recent_returns.filter (fun r => decide (0 < r))
    let negative_returns := recent_returns.filter (fun r => decide (r < 0))
    if positive_returns.length = 0 ∨ negative_returns.length = 0 then 1 / 100
    else
      let win_rate : ℚ := (positive_returns.length : ℚ) / (recent_returns.length : ℚ)
      let avg_win := positive_returns.sum / (positive_returns.length : ℚ)
      let avg_loss := |negative_returns.sum / (negative_returns.length : ℚ)|
      if avg_loss = 0 then 1 / 100
      else
        let b := avg_win / avg_loss
        let p := win_rate * signal_confidence
        let q := 1 - p
        let kelly_fraction := (b * p - q) / b
        let scaled_kelly := kelly_fraction * (1 / 4)
        max (1 / 100) (min (1 / 4) scaled_kelly)

/-! ## Theorems -/

/-! ### Basic cash-flow lemmas for `execute_trade` -/

lemma updateMarketPrices_cash (pt : PortfolioTracker) (prices : List (String × ℚ)) :
    (updateMarketPrices pt prices).cash = pt.cash := rfl

lemma executeTrade_buy_cash (pt : PortfolioTracker) (symbol : String)
    (quantity price commission_rate slippage_rate : ℚ) :
    (executeTrade pt symbol Side.BUY quantity price commission_rate slippage_rate).cash
      = pt.cash - quantity * price * (1 + commission_rate + slippage_rate) := by
  show pt.cash - _ = _
  simp only [Trade.total_cost]
  ring

lemma executeTrade_sell_cash (pt : PortfolioTracker) (symbol : String)
    (quantity price commission_rate slippage_rate : ℚ) :
    (executeTrade pt symbol Side.SELL quantity price commission_rate slippage_rate).cash
      = pt.cash + quantity * price * (1 + commission_rate + slippage_rate) := by
  show pt.cash + _ = _
  simp only [Trade.total_cost]
  ring

/-- C1.  Ledger cash accounting round trip, evaluated at the spec's own
scenario: starting from cash 10000, a BUY of 0.1 units at 20000 with
commission rate 0.001 and zero slippage leaves cash 7998, as the claim
states; but the immediate SELL of the same 0.1 units at 20000 returns cash
to 10000, not to the claimed 9996, because `_process_trade` credits
`total_cost` — notional *plus* commission plus slippage — on a SELL
instead of debiting the fees. -/
theorem ledger_round_trip_sell_credits_fees :
    (executeTrade (mkPortfolioTracker 10000) "BTC-USD" Side.BUY (1 / 10) 20000 (1 / 1000) 0).cash
        = 7998 ∧
    (executeTrade
        (executeTrade (mkPortfolioTracker 10000) "BTC-USD" Side.BUY (1 / 10) 20000 (1 / 1000) 0)
        "BTC-USD" Side.SELL (1 / 10) 20000 (1 / 1000) 0).cash = 10000 ∧
    (10000 : ℚ) ≠ 9996 := by
  refine ⟨?_, ?_, by norm_num⟩ <;>
    norm_num +decide [executeTrade, processTrade, mkPortfolioTracker, updatePortfolioHistory,
      getDrawdownWith, updateMarketPrices, getPortfolioValue, positionsValue, mkSnapshot,
      lookupPos, setPos, erasePos, Trade.total_cost, Trade.net_quantity, List.find?,
      Position.market_value]

/-- C2 counterexample.  A BUY through the raw `execute_trade` API whose
total cost (200) exceeds the available cash (100) does not fail: the trade
is recorded at the full requested quantity of 1 unit and cash is driven to
-100.  No `InsufficientFundsError` exists anywhere in the code. -/
theorem insolvent_buy_executes_anyway :
    (executeTrade (mkPortfolioTracker 100) "BTC-USD" Side.BUY 1 200 0 0).cash = -100 ∧
    (executeTrade (mkPortfolioTracker 100) "BTC-USD" Side.BUY 1 200 0 0).trades.map
        (fun t => t.quantity) = [1] ∧
    (-100 : ℚ) < 0 := by
  refine ⟨?_, ?_, by norm_num⟩ <;>
    norm_num +decide [executeTrade, processTrade, mkPortfolioTracker, updatePortfolioHistory,
      getDrawdownWith, updateMarketPrices, getPortfolioValue, positionsValue, mkSnapshot,
      lookupPos, setPos, erasePos, Trade.total_cost, Trade.net_quantity, List.find?,
      Position.market_value]

/-- C2 amended.  `execute_trade` on the raw Ledger API never checks funds:
every BUY executes unconditionally, debiting the full cost
`quantity × price × (1 + commission_rate + slippage_rate)` from cash (which
may go negative), recording the trade at exactly the requested quantity —
the Ledger never raises and never auto-clamps. -/
theorem execute_trade_buy_unconditional (pt : PortfolioTracker) (symbol : String)
    (quantity price commission_rate slippage_rate : ℚ) :
    (executeTrade pt symbol Side.BUY quantity price commission_rate slippage_rate).cash
        = pt.cash - quantity * price * (1 + commission_rate + slippage_rate) ∧
    (executeTrade pt symbol Side.BUY quantity price commission_rate slippage_rate).trades
        = pt.trades ++
          [{ symbol := symbol, side := Side.BUY, quantity := quantity, price := price
             commission := quantity * price * commission_rate
             slippage := quantity * price * slippage_rate }] := by
  exact ⟨executeTrade_buy_cash pt symbol quantity price commission_rate slippage_rate, rfl⟩

/-- C9.  For every historical-returns sample and every signal confidence,
`_kelly_criterion` (the Kelly computation before the confidence and
volatility post-scaling of `calculate_position_size`) returns a value in
the closed interval [0.01, 0.25]: the fallback branches return the 0.01
minimum and the main branch is clamped by `max(0.01, min(0.25, ·))`. -/
theorem kelly_fraction_bounded (returns : List ℚ) (signal_confidence : ℚ) :
    1 / 100 ≤ kellyCriterion returns signal_confidence ∧
    kellyCriterion returns signal_confidence ≤ 1 / 4 := by
  have hclamp : ∀ x : ℚ, 1 / 100 ≤ max (1 / 100) (min (1 / 4) x) ∧
      max (1 / 100) (min (1 / 4) x) ≤ 1 / 4 :=
    fun x => ⟨le_max_left _ _, max_le (by norm_num) (min_le_left _ _)⟩
  simp only [kellyCriterion]
  split
  · norm_num
  · split
    · norm_num
    · split
      · norm_num
      · exact hclamp _

/-! ### Ledger snapshot conservation (C3) -/

lemma getDrawdownWith_snd_history (pt : PortfolioTracker) (prices : List (String × ℚ)) :
    ((getDrawdownWith pt prices).2).portfolio_history = pt.portfolio_history := by
  simp only [getDrawdownWith]
  split <;> split <;> rfl

lemma getDrawdownWith_snd_cash (pt : PortfolioTracker) (prices : List (String × ℚ)) :
    ((getDrawdownWith pt prices).2).cash = pt.cash := by
  simp only [getDrawdownWith]
  split <;> split <;> rfl

lemma getDrawdownWith_snd_positions (pt : PortfolioTracker) (prices : List (String × ℚ)) :
    ((getDrawdownWith pt prices).2).positions = (updateMarketPrices pt prices).positions := by
  simp only [getDrawdownWith]
  split <;> split <;> rfl

lemma updatePortfolioHistory_history (pt : PortfolioTracker) :
    (updatePortfolioHistory pt).portfolio_history =
      pt.portfolio_history ++ [mkSnapshot pt] := by
  show ((getDrawdownWith pt []).2).portfolio_history ++ [mkSnapshot pt] = _
  rw [getDrawdownWith_snd_history]

lemma updatePortfolioHistory_cash (pt : PortfolioTracker) :
    (updatePortfolioHistory pt).cash = pt.cash := by
  show ((getDrawdownWith pt []).2).cash = pt.cash
  rw [getDrawdownWith_snd_cash]

lemma updatePortfolioHistory_positions (pt : PortfolioTracker) :
    (updatePortfolioHistory pt).positions = pt.positions := by
  show ((getDrawdownWith pt []).2).positions = pt.positions
  rw [getDrawdownWith_snd_positions]
  rfl

lemma mkSnapshot_congr (pt pt' : PortfolioTracker) (hc : pt.cash = pt'.cash)
    (hp : pt.positions = pt'.positions) : mkSnapshot pt = mkSnapshot pt' := by
  simp only [mkSnapshot, getPortfolioValue, hc, hp]

/-- Every snapshot in the history after a call sequence is either an
initial-history snapshot or the snapshot of the state reached by some
prefix of the calls. -/
lemma mem_history_runOps (ops : List LedgerOp) (pt : PortfolioTracker) (s : Snapshot)
    (hs : s ∈ (runOps ops pt).portfolio_history) :
    s ∈ pt.portfolio_history ∨
      ∃ pre post, ops = pre ++ post ∧ s = mkSnapshot (runOps pre pt) := by
  induction ops generalizing pt with
  | nil => exact Or.inl hs
  | cons op rest ih =>
    rcases ih (applyOp pt op) hs with h | ⟨pre, post, heq, hsnap⟩
    · cases op with
      | trade symbol side quantity price commission_rate slippage_rate => exact Or.inl h
      | setPrices prices => exact Or.inl h
      | snapshot =>
          rw [show applyOp pt LedgerOp.snapshot = updatePortfolioHistory pt from rfl,
            updatePortfolioHistory_history] at h
          rcases List.mem_append.mp h with h1 | h2
          · exact Or.inl h1
          · exact Or.inr ⟨[], LedgerOp.snapshot :: rest, rfl, List.mem_singleton.mp h2⟩
    · exact Or.inr ⟨op :: pre, post, by rw [List.cons_append, heq], hsnap⟩

/-- C3 amended.  After any sequence of `execute_trade`,
`update_market_prices` and snapshot calls, every snapshot in
`portfolio_history` is the snapshot of the ledger state reached by some
prefix of the calls, and satisfies the conservation identity
`total_value = cash + Σ |position.quantity| × position.current_price` —
with the absolute value the source's `market_value` takes, not the signed
quantity the claim states (see the counterexample for the signed form). -/
theorem snapshot_conservation_abs_value (c : ℚ) (ops : List LedgerOp) (s : Snapshot)
    (hs : s ∈ (runOps ops (mkPortfolioTracker c)).portfolio_history) :
    ∃ pre post, ops = pre ++ post ∧
      s = mkSnapshot (runOps pre (mkPortfolioTracker c)) ∧
      s.total_value = (runOps pre (mkPortfolioTracker c)).cash
        + positionsValue (runOps pre (mkPortfolioTracker c)).positions := by
  rcases mem_history_runOps ops (mkPortfolioTracker c) s hs with h | ⟨pre, post, heq, hsnap⟩
  · have hbase : s = mkSnapshot (mkPortfolioTracker c) := by
      rw [show (mkPortfolioTracker c).portfolio_history
            = [mkSnapshot (mkPortfolioTracker c)] from ?_] at h
      · exact List.mem_singleton.mp h
      · rw [show mkPortfolioTracker c = updatePortfolioHistory
            { initial_capital := c, cash := c, positions := [], trades := []
              portfolio_history := [], peak_value := c, max_drawdown := 0
              total_commission := 0, total_slippage := 0 } from rfl,
          updatePortfolioHistory_history]
        rw [List.nil_append]
        refine congrArg (fun z => [z]) (mkSnapshot_congr _ _ ?_ ?_)
        · rw [updatePortfolioHistory_cash]
        · rw [updatePortfolioHistory_positions]
    exact ⟨[], ops, rfl, hbase, by rw [hbase]; rfl⟩
  · exact ⟨pre, post, heq, hsnap, by rw [hsnap]; rfl⟩

/-- C3 witness: with starting capital 5 and the single call sequence
`[snapshot]`, the appended snapshot decomposes as the theorem states. -/
theorem snapshot_conservation_abs_value_witness :
    ∃ pre post, [LedgerOp.snapshot] = pre ++ post ∧
      mkSnapshot (mkPortfolioTracker 5)
        = mkSnapshot (runOps pre (mkPortfolioTracker 5)) ∧
      (mkSnapshot (mkPortfolioTracker 5)).total_value
        = (runOps pre (mkPortfolioTracker 5)).cash
          + positionsValue (runOps pre (mkPortfolioTracker 5)).positions :=
  snapshot_conservation_abs_value 5 [LedgerOp.snapshot] (mkSnapshot (mkPortfolioTracker 5))
    (by rw [show runOps [LedgerOp.snapshot] (mkPortfolioTracker 5)
          = updatePortfolioHistory (mkPortfolioTracker 5) from rfl,
        updatePortfolioHistory_history]
        exact List.mem_append_right _ (List.mem_singleton.mpr rfl))

/-- C3 counterexample.  One raw-ledger call — SELL 1 unit at price 10 with
zero fees from an empty portfolio — creates a short position of quantity
−1, and the snapshot then appended reports `total_value = 10020`
(`market_value` sums `abs(quantity) × current_price`), while
`cash + Σ quantity × current_price = 10000`: the signed-sum identity the
claim states fails on short positions. -/
theorem snapshot_signed_sum_fails :
    mkSnapshot (runOps [LedgerOp.trade "BTC-USD" Side.SELL 1 10 0 0] (mkPortfolioTracker 10000))
        ∈ (runOps [LedgerOp.trade "BTC-USD" Side.SELL 1 10 0 0, LedgerOp.snapshot]
            (mkPortfolioTracker 10000)).portfolio_history ∧
    (mkSnapshot (runOps [LedgerOp.trade "BTC-USD" Side.SELL 1 10 0 0]
        (mkPortfolioTracker 10000))).total_value = 10020 ∧
    (runOps [LedgerOp.trade "BTC-USD" Side.SELL 1 10 0 0] (mkPortfolioTracker 10000)).cash
        + signedPositionsValue
            (runOps [LedgerOp.trade "BTC-USD" Side.SELL 1 10 0 0]
              (mkPortfolioTracker 10000)).positions = 10000 ∧
    (10020 : ℚ) ≠ 10000 := by
  refine ⟨?_, ?_, ?_, by norm_num⟩ <;>
    norm_num +decide [runOps, applyOp, executeTrade, processTrade, mkPortfolioTracker,
      updatePortfolioHistory, getDrawdownWith, updateMarketPrices, getPortfolioValue,
      positionsValue, signedPositionsValue, mkSnapshot, lookupPos, setPos, erasePos,
      Trade.total_cost, Trade.net_quantity, List.find?, Position.market_value]

/-! ### Ensemble tie-break (C5) and consensus monotonicity (C8) -/

/-- Two equally weighted sub-strategies whose latest votes are BUY and SELL
at full confidence: an exact buy/sell weight tie. -/
def tieWeights : List (String × ℚ) := [("a", 1), ("b", 1)]

/-- The sub-strategy signal lists realising the tie. -/
def tieSignals : List (String × List TradingSignal) :=
  [("a", [{ signal := SignalType.BUY, confidence := 1, price := 0 }]),
   ("b", [{ signal := SignalType.SELL, confidence := 1, price := 0 }])]

/-- An ensemble configuration whose consensus and confidence gates the tie
scenario passes. -/
def tieConfig : EnsembleConfig :=
  { strategy_weights := tieWeights, min_consensus := 3 / 10, confidence_threshold := 1 / 2 }

lemma tie_latest : latestSignals tieSignals
    = [("a", { signal := SignalType.BUY, confidence := 1, price := 0 }),
       ("b", { signal := SignalType.SELL, confidence := 1, price := 0 })] := by
  norm_num [latestSignals, tieSignals, List.filterMap, List.getLast?]

lemma tie_votes : voteWeights tieWeights (latestSignals tieSignals) = (1, 1, 0) := by
  rw [tie_latest]
  norm_num [voteWeights, weightLookup, tieWeights, List.foldl]

lemma tie_conf : ensembleConfidence (latestSignals tieSignals) = 1 := by
  rw [tie_latest]
  norm_num [ensembleConfidence, List.filter, min_def, List.cons_ne_nil]

lemma tie_wve_value : weightedVotingEnsemble tieConfig tieSignals [100]
    = [{ signal := SignalType.BUY, confidence := 1, price := 100 }] := by
  simp only [weightedVotingEnsemble, wveEmit, tieConfig]
  rw [tie_votes, tie_conf, tie_latest]
  norm_num [max_def, min_def, tieWeights, List.getLastD, List.cons_ne_nil]

/-- C5 counterexample.  On an exact, maximal buy/sell weight tie (both
buckets at weight 1, hold at 0) the weighted-voting ensemble does not stay
silent: `max_weight == buy_weight` is tested first, so it emits a BUY
signal. -/
theorem exact_tie_emits_buy :
    (voteWeights tieWeights (latestSignals tieSignals)).1
        = (voteWeights tieWeights (latestSignals tieSignals)).2.1 ∧
    (voteWeights tieWeights (latestSignals tieSignals)).2.2
        ≤ (voteWeights tieWeights (latestSignals tieSignals)).1 ∧
    weightedVotingEnsemble tieConfig tieSignals [100]
        = [{ signal := SignalType.BUY, confidence := 1, price := 100 }] ∧
    weightedVotingEnsemble tieConfig tieSignals [100] ≠ [] := by
  refine ⟨by rw [tie_votes], by rw [tie_votes]; norm_num, tie_wve_value, ?_⟩
  rw [tie_wve_value]
  exact List.cons_ne_nil _ _

/-- C5 amended.  Whenever the accumulated buy weight exactly equals the
accumulated sell weight and both are maximal (and the non-empty, non-zero,
consensus and confidence gates all pass), `_weighted_voting_ensemble`
resolves the tie to BUY and emits one BUY signal — it does not treat the
tie as no-consensus. -/
theorem exact_tie_resolves_to_buy (cfg : EnsembleConfig)
    (sub_signals : List (String × List TradingSignal)) (data : List ℚ)
    (hdata : data ≠ [])
    (hlat : latestSignals sub_signals ≠ [])
    (htie : (voteWeights cfg.strategy_weights (latestSignals sub_signals)).1
        = (voteWeights cfg.strategy_weights (latestSignals sub_signals)).2.1)
    (hhold : (voteWeights cfg.strategy_weights (latestSignals sub_signals)).2.2
        ≤ (voteWeights cfg.strategy_weights (latestSignals sub_signals)).1)
    (h0 : (voteWeights cfg.strategy_weights (latestSignals sub_signals)).1 ≠ 0)
    (hcons : ¬((voteWeights cfg.strategy_weights (latestSignals sub_signals)).1
        / (cfg.strategy_weights.map (fun e => e.2)).sum < cfg.min_consensus))
    (hconf : ¬(ensembleConfidence (latestSignals sub_signals) < cfg.confidence_threshold)) :
    weightedVotingEnsemble cfg sub_signals data
      = [{ signal := SignalType.BUY
           confidence := ensembleConfidence (latestSignals sub_signals)
           price := data.getLastD 0 }] := by
  have hmax : max (voteWeights cfg.strategy_weights (latestSignals sub_signals)).1
      (max (voteWeights cfg.strategy_weights (latestSignals sub_signals)).2.1
        (voteWeights cfg.strategy_weights (latestSignals sub_signals)).2.2)
      = (voteWeights cfg.strategy_weights (latestSignals sub_signals)).1 := by
    rw [← htie, max_eq_left hhold, max_self]
  simp only [weightedVotingEnsemble, wveEmit]
  rw [if_neg hdata, if_neg hlat, hmax, if_neg h0, if_neg hcons, if_pos rfl]
  rw [if_neg hconf]

/-- C5 witness: the amended tie-break theorem applied to the concrete tie
scenario. -/
theorem exact_tie_resolves_to_buy_witness :
    weightedVotingEnsemble tieConfig tieSignals [100]
      = [{ signal := SignalType.BUY
           confidence := ensembleConfidence (latestSignals tieSignals)
           price := ([100] : List ℚ).getLastD 0 }] :=
  exact_tie_resolves_to_buy tieConfig tieSignals [100]
    (List.cons_ne_nil _ _)
    (by rw [tie_latest]; exact List.cons_ne_nil _ _)
    (by rw [show tieConfig.strategy_weights = tieWeights from rfl, tie_votes])
    (by rw [show tieConfig.strategy_weights = tieWeights from rfl, tie_votes]; norm_num)
    (by rw [show tieConfig.strategy_weights = tieWeights from rfl, tie_votes]; norm_num)
    (by rw [show tieConfig.strategy_weights = tieWeights from rfl, tie_votes]
        norm_num [tieWeights, tieConfig])
    (by rw [tie_conf]
        norm_num [tieConfig])

/-- C8.  For a fixed set of sub-strategy signals, fixed weights and fixed
confidence threshold, raising `min_consensus` never increases the number of
ensemble signals emitted by `_weighted_voting_ensemble`: the threshold only
appears in the single gate `consensus_strength < min_consensus`. -/
theorem consensus_threshold_monotone (ws : List (String × ℚ)) (ct : ℚ)
    (sub_signals : List (String × List TradingSignal)) (data : List ℚ)
    (m1 m2 : ℚ) (h : m1 ≤ m2) :
    (weightedVotingEnsemble ⟨ws, m2, ct⟩ sub_signals data).length
      ≤ (weightedVotingEnsemble ⟨ws, m1, ct⟩ sub_signals data).length := by
  simp only [weightedVotingEnsemble]
  by_cases hdata : data = []
  · rw [if_pos hdata, if_pos hdata]
  · rw [if_neg hdata, if_neg hdata]
    by_cases hlat : latestSignals sub_signals = []
    · rw [if_pos hlat, if_pos hlat]
    · rw [if_neg hlat, if_neg hlat]
      by_cases h0 : max (voteWeights ws (latestSignals sub_signals)).1
          (max (voteWeights ws (latestSignals sub_signals)).2.1
            (voteWeights ws (latestSignals sub_signals)).2.2) = 0
      · rw [if_pos h0, if_pos h0]
      · rw [if_neg h0, if_neg h0]
        by_cases hc2 : max (voteWeights ws (latestSignals sub_signals)).1
            (max (voteWeights ws (latestSignals sub_signals)).2.1
              (voteWeights ws (latestSignals sub_signals)).2.2)
            / (ws.map (fun e => e.2)).sum < m2
        · rw [if_pos hc2]
          exact Nat.zero_le _
        · have hc1 : ¬(max (voteWeights ws (latestSignals sub_signals)).1
              (max (voteWeights ws (latestSignals sub_signals)).2.1
                (voteWeights ws (latestSignals sub_signals)).2.2)
              / (ws.map (fun e => e.2)).sum < m1) :=
            fun hlt => hc2 (lt_of_lt_of_le hlt h)
          rw [if_neg hc2, if_neg hc1]

/-- C8 witness: the monotonicity theorem applied at thresholds
3/10 ≤ 4/10 on the concrete two-strategy input. -/
theorem consensus_threshold_monotone_witness :
    (weightedVotingEnsemble ⟨tieWeights, 4 / 10, 1 / 2⟩ tieSignals [100]).length
      ≤ (weightedVotingEnsemble ⟨tieWeights, 3 / 10, 1 / 2⟩ tieSignals [100]).length :=
  consensus_threshold_monotone tieWeights (1 / 2) tieSignals [100] (3 / 10) (4 / 10)
    (by norm_num)

/-! ### Engine BUY sizing keeps cash non-negative (C7) -/

/-- The default values of `SimulationConfig`. -/
def defaultSimConfig : SimConfig :=
  { initial_capital := 10000, commission_rate := 1 / 1000, slippage_rate := 1 / 2000
    max_positions := 5, position_size := 1 / 5
    max_drawdown_limit := 1 / 4, daily_loss_limit := 1 / 20 }

/-- C7.  `_process_signal` never drives cash negative on a BUY: either the
full-cost order already fits in cash (and the branch condition itself
bounds the debit), or the quantity is re-sized to exactly the available
cash (leaving cash 0), or the trade is dropped.  Holds for any starting
state with non-negative cash, positive price, and non-negative fee
rates. -/
theorem engine_buy_keeps_cash_nonneg (cfg : SimConfig) (pt : PortfolioTracker)
    (sig : TradingSignal) (price : ℚ)
    (hsig : sig.signal = SignalType.BUY) (hcash : 0 ≤ pt.cash)
    (hprice : 0 < price) (hcr : 0 ≤ cfg.commission_rate) (hsr : 0 ≤ cfg.slippage_rate) :
    0 ≤ (processSignal cfg pt sig price).cash := by
  have hD : (0 : ℚ) < price * (1 + cfg.commission_rate + cfg.slippage_rate) :=
    mul_pos hprice (by linarith)
  simp only [processSignal, hsig, if_true, reduceCtorEq, if_false]
  split_ifs with h1 h2 h3 h4
  · exact hcash
  · exact hcash
  · rw [executeTrade_buy_cash, updateMarketPrices_cash, mul_assoc,
      div_mul_cancel₀ _ (ne_of_gt hD)]
    simp
  · exact hcash
  · rw [executeTrade_buy_cash, updateMarketPrices_cash]
    rw [updateMarketPrices_cash] at h1
    linarith [not_lt.mp h1]

/-- C7 witness: a concrete BUY at full confidence from the fresh default
portfolio leaves non-negative cash. -/
theorem engine_buy_keeps_cash_nonneg_witness :
    0 ≤ (processSignal defaultSimConfig (mkPortfolioTracker 10000)
        { signal := SignalType.BUY, confidence := 1, price := 100 } 100).cash :=
  engine_buy_keeps_cash_nonneg defaultSimConfig (mkPortfolioTracker 10000)
    { signal := SignalType.BUY, confidence := 1, price := 100 } 100
    rfl
    (by rw [show mkPortfolioTracker 10000 = updatePortfolioHistory
        { initial_capital := 10000, cash := 10000, positions := [], trades := []
          portfolio_history := [], peak_value := 10000, max_drawdown := 0
          total_commission := 0, total_slippage := 0 } from rfl, updatePortfolioHistory_cash]
        norm_num)
    (by norm_num)
    (by norm_num [defaultSimConfig])
    (by norm_num [defaultSimConfig])

/-! ### Long-only invariant through the engine (C10) -/

/-- Engine-level position invariant: every held position has strictly
positive quantity and a non-negative marked price. -/
def PosInv (ps : Positions) : Prop :=
  ∀ e ∈ ps, 0 < e.2.quantity ∧ 0 ≤ e.2.current_price

lemma positionsValue_nonneg (ps : Positions)
    (h : ∀ e ∈ ps, 0 ≤ e.2.current_price) : 0 ≤ positionsValue ps := by
  refine List.sum_nonneg ?_
  intro x hx
  rcases List.mem_map.mp hx with ⟨e, he, rfl⟩
  exact mul_nonneg (abs_nonneg _) (h e he)

lemma lookupPos_mem (ps : Positions) (sym : String) (pos : Position)
    (h : lookupPos ps sym = some pos) : (sym, pos) ∈ ps := by
  induction ps with
  | nil => simp [lookupPos] at h
  | cons e rest ih =>
      by_cases hc : e.1 = sym
      · rw [lookupPos, if_pos hc] at h
        obtain rfl := Option.some_injective _ h
        rw [← hc]
        exact List.mem_cons.mpr (Or.inl Prod.mk.eta)
      · rw [lookupPos, if_neg hc] at h
        exact List.mem_cons_of_mem _ (ih h)

lemma mem_setPos (ps : Positions) (sym : String) (pos : Position) (x : String × Position)
    (h : x ∈ setPos ps sym pos) : x ∈ ps ∨ x = (sym, pos) := by
  rcases List.mem_map.mp h with ⟨a, ha, rfl⟩
  by_cases hc : a.1 = sym
  · rw [if_pos hc]
    exact Or.inr rfl
  · rw [if_neg hc]
    exact Or.inl ha

lemma mem_erasePos (ps : Positions) (sym : String) (x : String × Position)
    (h : x ∈ erasePos ps sym) : x ∈ ps := by
  induction ps with
  | nil => simp [erasePos] at h
  | cons e rest ih =>
      by_cases hc : e.1 = sym
      · rw [erasePos, if_pos hc] at h
        exact List.mem_cons_of_mem _ (ih h)
      · rw [erasePos, if_neg hc] at h
        rcases List.mem_cons.mp h with h1 | h2
        · exact h1 ▸ List.mem_cons_self _ _
        · exact List.mem_cons_of_mem _ (ih h2)

lemma updatePrice_posInv (ps : Positions) (sym : String) (price : ℚ)
    (hp : 0 ≤ price) (hpos : PosInv ps) : PosInv (updatePrice ps sym price) := by
  unfold updatePrice
  cases lookupPos ps sym with
  | none => exact hpos
  | some _ =>
      intro x hx
      rcases List.mem_map.mp hx with ⟨a, ha, rfl⟩
      by_cases hc : a.1 = sym
      · rw [if_pos hc]
        exact ⟨(hpos a ha).1, hp⟩
      · rw [if_neg hc]
        exact hpos a ha

lemma updateMarketPrices_posInv (pt : PortfolioTracker) (prices : List (String × ℚ))
    (hp : ∀ pr ∈ prices, 0 ≤ pr.2) (hpos : PosInv pt.positions) :
    PosInv (updateMarketPrices pt prices).positions := by
  show PosInv (prices.foldl (fun ps pr => updatePrice ps pr.1 pr.2) pt.positions)
  induction prices generalizing pt with
  | nil => exact hpos
  | cons pr rest ih =>
      have h1 : PosInv (updatePrice pt.positions pr.1 pr.2) :=
        updatePrice_posInv _ _ _ (hp pr (List.mem_cons_self _ _)) hpos
      exact ih { pt with positions := updatePrice pt.positions pr.1 pr.2 }
        (fun q hq => hp q (List.mem_cons_of_mem _ hq)) h1

lemma processTrade_buy_posInv (pt : PortfolioTracker) (t : Trade)
    (hside : t.side = Side.BUY) (hq : 0 ≤ t.quantity) (hp : 0 ≤ t.price)
    (hpos : PosInv pt.positions) : PosInv (processTrade pt t).positions := by
  have hnet : t.net_quantity = t.quantity := by
    rw [Trade.net_quantity, if_pos hside]
  show PosInv
    (match lookupPos pt.positions t.symbol with
     | some position =>
         if position.quantity + t.net_quantity ≠ 0 then
           setPos pt.positions t.symbol
             { position with
               avg_entry_price := (position.quantity * position.avg_entry_price
                 + t.net_quantity * t.price) / (position.quantity + t.net_quantity)
               quantity := position.quantity + t.net_quantity }
         else erasePos pt.positions t.symbol
     | none =>
         if t.net_quantity ≠ 0 then
           pt.positions ++
             [(t.symbol,
               { symbol := t.symbol, quantity := t.net_quantity
                 avg_entry_price := t.price, current_price := t.price })]
         else pt.positions)
  cases hl : lookupPos pt.positions t.symbol with
  | some position =>
      dsimp only []
      have hold : 0 < position.quantity ∧ 0 ≤ position.current_price :=
        hpos _ (lookupPos_mem _ _ _ hl)
      have htot : 0 < position.quantity + t.net_quantity := by
        rw [hnet]; linarith [hold.1]
      rw [if_pos (ne_of_gt htot)]
      intro x hx
      rcases mem_setPos _ _ _ _ hx with hx1 | hx2
      · exact hpos x hx1
      · rw [hx2]
        exact ⟨htot, hold.2⟩
  | none =>
      dsimp only []
      by_cases h0 : t.net_quantity ≠ 0
      · rw [if_pos h0]
        intro x hx
        rcases List.mem_append.mp hx with hx1 | hx2
        · exact hpos x hx1
        · rw [List.mem_singleton.mp hx2]
          refine ⟨?_, hp⟩
          rw [hnet] at h0 ⊢
          exact lt_of_le_of_ne hq (Ne.symm h0)
      · rw [if_neg h0]
        exact hpos

lemma processTrade_sell_posInv (pt : PortfolioTracker) (t : Trade) (pos : Position)
    (hside : t.side = Side.SELL)
    (hl : lookupPos pt.positions t.symbol = some pos)
    (hle : t.quantity ≤ pos.quantity)
    (hpos : PosInv pt.positions) : PosInv (processTrade pt t).positions := by
  have hnet : t.net_quantity = -t.quantity := by
    rw [Trade.net_quantity, if_neg (by rw [hside]; exact (by decide))]
  have hold : 0 < pos.quantity ∧ 0 ≤ pos.current_price :=
    hpos _ (lookupPos_mem _ _ _ hl)
  show PosInv
    (match lookupPos pt.positions t.symbol with
     | some position =>
         if position.quantity + t.net_quantity ≠ 0 then
           setPos pt.positions t.symbol
             { position with
               avg_entry_price := (position.quantity * position.avg_entry_price
                 + t.net_quantity * t.price) / (position.quantity + t.net_quantity)
               quantity := position.quantity + t.net_quantity }
         else erasePos pt.positions t.symbol
     | none =>
         if t.net_quantity ≠ 0 then
           pt.positions ++
             [(t.symbol,
               { symbol := t.symbol, quantity := t.net_quantity
                 avg_entry_price := t.price, current_price := t.price })]
         else pt.positions)
  rw [hl]
  dsimp only []
  by_cases h0 : pos.quantity + t.net_quantity ≠ 0
  · rw [if_pos h0]
    intro x hx
    rcases mem_setPos _ _ _ _ hx with hx1 | hx2
    · exact hpos x hx1
    · rw [hx2]
      refine ⟨?_, hold.2⟩
      have hge : 0 ≤ pos.quantity + t.net_quantity := by
        rw [hnet]; linarith
      exact lt_of_le_of_ne hge (Ne.symm h0)
  · rw [if_neg h0]
    intro x hx
    exact hpos x (mem_erasePos _ _ _ hx)

lemma executeTrade_buy_posInv (pt : PortfolioTracker) (sym : String)
    (q p cr sr : ℚ) (hq : 0 ≤ q) (hp : 0 ≤ p) (hpos : PosInv pt.positions) :
    PosInv (executeTrade pt sym Side.BUY q p cr sr).positions :=
  processTrade_buy_posInv pt
    { symbol := sym, side := Side.BUY, quantity := q, price := p
      commission := q * p * cr, slippage := q * p * sr } rfl hq hp hpos

lemma executeTrade_sell_posInv (pt : PortfolioTracker) (sym : String)
    (q p cr sr : ℚ) (pos : Position)
    (hl : lookupPos pt.positions sym = some pos) (hle : q ≤ pos.quantity)
    (hpos : PosInv pt.positions) :
    PosInv (executeTrade pt sym Side.SELL q p cr sr).positions :=
  processTrade_sell_posInv pt
    { symbol := sym, side := Side.SELL, quantity := q, price := p
      commission := q * p * cr, slippage := q * p * sr } pos rfl hl hle hpos

/-- One `_process_signal` call preserves non-negative cash and the
long-only position invariant. -/
lemma processSignal_preserves (cfg : SimConfig) (pt : PortfolioTracker)
    (sig : TradingSignal) (price : ℚ)
    (hprice : 0 < price) (hcr : 0 ≤ cfg.commission_rate) (hsr : 0 ≤ cfg.slippage_rate)
    (hps : 0 ≤ cfg.position_size)
    (hcash : 0 ≤ pt.cash) (hpos : PosInv pt.positions) :
    0 ≤ (processSignal cfg pt sig price).cash ∧
      PosInv (processSignal cfg pt sig price).positions := by
  have hD : (0 : ℚ) < price * (1 + cfg.commission_rate + cfg.slippage_rate) :=
    mul_pos hprice (by linarith)
  have hpos1 : PosInv (updateMarketPrices pt [("BTC-USD", price)]).positions := by
    refine updateMarketPrices_posInv pt _ ?_ hpos
    intro pr hpr
    rw [List.mem_singleton.mp hpr]
    exact hprice.le
  have hpv : 0 ≤ getPortfolioValue (updateMarketPrices pt [("BTC-USD", price)]) :=
    add_nonneg hcash (positionsValue_nonneg _ (fun e he => (hpos1 e he).2))
  have hq0 : 0 ≤ getPortfolioValue (updateMarketPrices pt [("BTC-USD", price)])
      * cfg.position_size / price :=
    div_nonneg (mul_nonneg hpv hps) hprice.le
  cases hsig : sig.signal with
  | HOLD =>
      simp only [processSignal, hsig, if_true, reduceCtorEq, if_false]
      exact ⟨hcash, hpos⟩
  | BUY =>
      simp only [processSignal, hsig, if_true, reduceCtorEq, if_false]
      split_ifs with h1 h2 h3 h4
      · exact ⟨hcash, hpos1⟩
      · exact ⟨hcash, hpos1⟩
      · constructor
        · rw [executeTrade_buy_cash, updateMarketPrices_cash, mul_assoc,
            div_mul_cancel₀ _ (ne_of_gt hD)]
          simp
        · exact executeTrade_buy_posInv _ _ _ _ _ _
            (div_nonneg hcash hD.le) hprice.le hpos1
      · exact ⟨hcash, hpos1⟩
      · constructor
        · rw [executeTrade_buy_cash, updateMarketPrices_cash]
          rw [updateMarketPrices_cash] at h1
          linarith [not_lt.mp h1]
        · exact executeTrade_buy_posInv _ _ _ _ _ _ hq0 hprice.le hpos1
  | SELL =>
      simp only [processSignal, hsig, if_true, reduceCtorEq, if_false]
      cases hl : lookupPos (updateMarketPrices pt [("BTC-USD", price)]).positions "BTC-USD" with
      | none =>
          dsimp only []
          exact ⟨hcash, hpos1⟩
      | some pos =>
          dsimp only []
          have hpq : 0 < pos.quantity ∧ 0 ≤ pos.current_price :=
            hpos1 _ (lookupPos_mem _ _ _ hl)
          split_ifs with h5
          · exact ⟨hcash, hpos1⟩
          · constructor
            · rw [executeTrade_sell_cash, updateMarketPrices_cash]
              have hm : 0 ≤ min (getPortfolioValue
                  (updateMarketPrices pt [("BTC-USD", price)]) * cfg.position_size / price)
                  pos.quantity := le_min hq0 hpq.1.le
              have : 0 ≤ min (getPortfolioValue
                  (updateMarketPrices pt [("BTC-USD", price)]) * cfg.position_size / price)
                  pos.quantity * price * (1 + cfg.commission_rate + cfg.slippage_rate) := by
                refine mul_nonneg (mul_nonneg hm hprice.le) ?_
                linarith
              linarith
            · exact executeTrade_sell_posInv _ _ _ _ _ _ pos hl (min_le_right _ _) hpos1

/-- Folding `_process_signal` over a bar's signals preserves the invariant. -/
lemma foldl_processSignal_preserves (cfg : SimConfig) (price : ℚ)
    (hprice : 0 < price) (hcr : 0 ≤ cfg.commission_rate) (hsr : 0 ≤ cfg.slippage_rate)
    (hps : 0 ≤ cfg.position_size) :
    ∀ (signals : List TradingSignal) (pt : PortfolioTracker),
      0 ≤ pt.cash → PosInv pt.positions →
      0 ≤ (signals.foldl (fun p s => processSignal cfg p s price) pt).cash ∧
        PosInv (signals.foldl (fun p s => processSignal cfg p s price) pt).positions := by
  intro signals
  induction signals with
  | nil => intro pt hc hp; exact ⟨hc, hp⟩
  | cons s rest ih =>
      intro pt hc hp
      have hstep := processSignal_preserves cfg pt s price hprice hcr hsr hps hc hp
      exact ih _ hstep.1 hstep.2

lemma checkRiskLimits_preserves (cfg : SimConfig) (price : ℚ) (pt : PortfolioTracker)
    (hp : 0 ≤ price) (hcash : 0 ≤ pt.cash) (hpos : PosInv pt.positions) :
    0 ≤ ((checkRiskLimits cfg price pt).2.2).cash ∧
      PosInv ((checkRiskLimits cfg price pt).2.2).positions := by
  have hprices : ∀ pr ∈ [("BTC-USD", price)], 0 ≤ pr.2 := by
    intro pr hpr
    rw [List.mem_singleton.mp hpr]
    exact hp
  simp only [checkRiskLimits]
  split
  · constructor
    · rw [updateMarketPrices_cash, getDrawdownWith_snd_cash]
      exact hcash
    · refine updateMarketPrices_posInv _ _ hprices ?_
      rw [getDrawdownWith_snd_positions]
      exact updateMarketPrices_posInv _ _ hprices hpos
  · constructor
    · rw [getDrawdownWith_snd_cash]
      exact hcash
    · rw [getDrawdownWith_snd_positions]
      exact updateMarketPrices_posInv _ _ hprices hpos

lemma stepBarPortfolio_preserves (cfg : SimConfig) (price : ℚ)
    (sigRes : Except String (List TradingSignal)) (pt : PortfolioTracker)
    (hprice : 0 < price) (hcr : 0 ≤ cfg.commission_rate) (hsr : 0 ≤ cfg.slippage_rate)
    (hps : 0 ≤ cfg.position_size)
    (hcash : 0 ≤ pt.cash) (hpos : PosInv pt.positions) :
    0 ≤ ((stepBarPortfolio cfg price sigRes pt).2.2).cash ∧
      PosInv ((stepBarPortfolio cfg price sigRes pt).2.2).positions := by
  have hprices : ∀ pr ∈ [("BTC-USD", price)], 0 ≤ pr.2 := by
    intro pr hpr
    rw [List.mem_singleton.mp hpr]
    exact hprice.le
  have hbase : 0 ≤ (updateMarketPrices pt [("BTC-USD", price)]).cash ∧
      PosInv (updateMarketPrices pt [("BTC-USD", price)]).positions :=
    ⟨hcash, updateMarketPrices_posInv _ _ hprices hpos⟩
  have h2 : 0 ≤ (match sigRes with
        | Except.error _ => updateMarketPrices pt [("BTC-USD", price)]
        | Except.ok signals => signals.foldl
            (fun p s => processSignal cfg p s price)
            (updateMarketPrices pt [("BTC-USD", price)])).cash ∧
      PosInv (match sigRes with
        | Except.error _ => updateMarketPrices pt [("BTC-USD", price)]
        | Except.ok signals => signals.foldl
            (fun p s => processSignal cfg p s price)
            (updateMarketPrices pt [("BTC-USD", price)])).positions := by
    cases sigRes with
    | error e => exact hbase
    | ok signals =>
        exact foldl_processSignal_preserves cfg price hprice hcr hsr hps signals _
          hbase.1 hbase.2
  simp only [stepBarPortfolio]
  rw [updatePortfolioHistory_cash, updatePortfolioHistory_positions]
  exact checkRiskLimits_preserves cfg price _ hprice.le h2.1 h2.2

lemma runBars_preserves (cfg : SimConfig) (bars : List (ℚ × List TradingSignal))
    (hcr : 0 ≤ cfg.commission_rate) (hsr : 0 ≤ cfg.slippage_rate)
    (hps : 0 ≤ cfg.position_size) :
    ∀ pt : PortfolioTracker, (∀ b ∈ bars, 0 < b.1) → 0 ≤ pt.cash → PosInv pt.positions →
      0 ≤ (runBars cfg bars pt).cash ∧ PosInv (runBars cfg bars pt).positions := by
  induction bars with
  | nil => intro pt _ hc hp; exact ⟨hc, hp⟩
  | cons b rest ih =>
      intro pt hb hc hp
      have hstep := stepBarPortfolio_preserves cfg b.1 (Except.ok b.2) pt
        (hb b (List.mem_cons_self _ _)) hcr hsr hps hc hp
      exact ih _ (fun x hx => hb x (List.mem_cons_of_mem _ hx)) hstep.1 hstep.2

/-- C10.  Starting from an empty portfolio, after any sequence of bars
processed through `_process_signal` (with positive bar prices and
non-negative fee/sizing parameters) every held position has strictly
positive quantity: the engine only opens positions with BUYs of
non-negative size, requires an existing long position before selling, and
clamps SELLs to the held quantity — so no short position ever appears,
even though the data model admits signed quantities. -/
theorem engine_long_only (cfg : SimConfig) (c : ℚ) (bars : List (ℚ × List TradingSignal))
    (hc : 0 ≤ c) (hcr : 0 ≤ cfg.commission_rate) (hsr : 0 ≤ cfg.slippage_rate)
    (hps : 0 ≤ cfg.position_size) (hbars : ∀ b ∈ bars, 0 < b.1) :
    ∀ e ∈ (runBars cfg bars (mkPortfolioTracker c)).positions, 0 < e.2.quantity := by
  have hmk : mkPortfolioTracker c = updatePortfolioHistory
      { initial_capital := c, cash := c, positions := [], trades := []
        portfolio_history := [], peak_value := c, max_drawdown := 0
        total_commission := 0, total_slippage := 0 } := rfl
  have h0cash : 0 ≤ (mkPortfolioTracker c).cash := by
    rw [hmk, updatePortfolioHistory_cash]
    exact hc
  have h0pos : PosInv (mkPortfolioTracker c).positions := by
    rw [hmk, updatePortfolioHistory_positions]
    intro e he
    simp at he
  have h := runBars_preserves cfg bars hcr hsr hps (mkPortfolioTracker c) hbars h0cash h0pos
  exact fun e he => (h.2 e he).1

lemma mkPT_val : mkPortfolioTracker 10000 =
    { initial_capital := 10000, cash := 10000, positions := [], trades := []
      portfolio_history :=
        [{ total_value := 10000, cash := 10000, positions_value := 0, num_positions := 0 }]
      peak_value := 10000, max_drawdown := 0
      total_commission := 0, total_slippage := 0 } := by
  norm_num [mkPortfolioTracker, updatePortfolioHistory, getDrawdownWith, updateMarketPrices,
    getPortfolioValue, positionsValue, mkSnapshot]

lemma ps_demo : processSignal defaultSimConfig
    { initial_capital := 10000, cash := 10000, positions := [], trades := []
      portfolio_history :=
        [{ total_value := 10000, cash := 10000, positions_value := 0, num_positions := 0 }]
      peak_value := 10000, max_drawdown := 0
      total_commission := 0, total_slippage := 0 }
    { signal := SignalType.BUY, confidence := 1, price := 100 } 100
  = { initial_capital := 10000, cash := 7997
      positions :=
        [("BTC-USD",
          { symbol := "BTC-USD", quantity := 20, avg_entry_price := 100, current_price := 100 })]
      trades :=
        [{ symbol := "BTC-USD", side := Side.BUY, quantity := 20, price := 100,
           commission := 2, slippage := 1 }]
      portfolio_history :=
        [{ total_value := 10000, cash := 10000, positions_value := 0, num_positions := 0 }]
      peak_value := 10000, max_drawdown := 0
      total_commission := 2, total_slippage := 1 } := by
  norm_num [processSignal, executeTrade, processTrade, updateMarketPrices, updatePrice,
    lookupPos, getPortfolioValue, positionsValue, Position.market_value, Trade.total_cost,
    Trade.net_quantity, setPos, erasePos, defaultSimConfig, reduceCtorEq]
  try rfl
  try decide

lemma run_demo_positions :
    (runBars defaultSimConfig [(100, [{ signal := SignalType.BUY, confidence := 1, price := 100 }])]
      (mkPortfolioTracker 10000)).positions
    = [("BTC-USD",
        { symbol := "BTC-USD", quantity := 20, avg_entry_price := 100, current_price := 100 })] := by
  rw [show runBars defaultSimConfig
      [(100, [{ signal := SignalType.BUY, confidence := 1, price := 100 }])]
      (mkPortfolioTracker 10000)
    = (stepBarPortfolio defaultSimConfig 100
        (Except.ok [{ signal := SignalType.BUY, confidence := 1, price := 100 }])
        (mkPortfolioTracker 10000)).2.2 from rfl, mkPT_val]
  norm_num [stepBarPortfolio, checkRiskLimits, updateMarketPrices, updatePrice, lookupPos,
    List.foldl_cons, List.foldl_nil, ps_demo, updatePortfolioHistory_positions,
    getDrawdownWith_snd_positions, getDrawdownWith_snd_history]
  try rfl

/-- C10 witness: the long-only theorem applied to the concrete one-bar run
(a BUY of 20 units at price 100 from the fresh default portfolio). -/
theorem engine_long_only_witness :
    0 < (("BTC-USD",
        ({ symbol := "BTC-USD", quantity := 20, avg_entry_price := 100,
           current_price := 100 } : Position)) : String × Position).2.quantity :=
  engine_long_only defaultSimConfig 10000
    [(100, [{ signal := SignalType.BUY, confidence := 1, price := 100 }])]
    (by norm_num) (by norm_num [defaultSimConfig]) (by norm_num [defaultSimConfig])
    (by norm_num [defaultSimConfig])
    (by intro b hb
        rw [List.mem_singleton.mp hb]
        norm_num)
    ("BTC-USD",
      { symbol := "BTC-USD", quantity := 20, avg_entry_price := 100, current_price := 100 })
    (by rw [run_demo_positions]
        exact List.mem_cons_self _ _)

lemma lookupPos_erasePos (ps : Positions) (sym : String) :
    lookupPos (erasePos ps sym) sym = none := by
  induction ps with
  | nil => rfl
  | cons e rest ih =>
      by_cases hc : e.1 = sym
      · rw [erasePos, if_pos hc]
        exact ih
      · rw [erasePos, if_neg hc, lookupPos, if_neg hc]
        exact ih

lemma net_quantity_sell (t : Trade) (h : t.side = Side.SELL) :
    t.net_quantity = -t.quantity := by
  have hb : ¬(t.side = Side.BUY) := by rw [h]; decide
  rw [Trade.net_quantity, if_neg hb]

/-- Selling a position's entire quantity deletes its dict entry. -/
lemma processTrade_sell_all_closes (pt : PortfolioTracker) (t : Trade) (pos : Position)
    (hside : t.side = Side.SELL)
    (hl : lookupPos pt.positions t.symbol = some pos)
    (hq : t.quantity = pos.quantity) :
    lookupPos (processTrade pt t).positions t.symbol = none := by
  show lookupPos
    (match lookupPos pt.positions t.symbol with
     | some position =>
         if position.quantity + t.net_quantity ≠ 0 then
           setPos pt.positions t.symbol
             { position with
               avg_entry_price := (position.quantity * position.avg_entry_price
                 + t.net_quantity * t.price) / (position.quantity + t.net_quantity)
               quantity := position.quantity + t.net_quantity }
         else erasePos pt.positions t.symbol
     | none =>
         if t.net_quantity ≠ 0 then
           pt.positions ++
             [(t.symbol,
               { symbol := t.symbol, quantity := t.net_quantity
                 avg_entry_price := t.price, current_price := t.price })]
         else pt.positions) t.symbol = none
  rw [hl]
  dsimp only []
  rw [net_quantity_sell t hside, hq]
  rw [if_neg (not_not_intro (by ring : pos.quantity + -pos.quantity = 0))]
  exact lookupPos_erasePos _ _

/-- C6.  (i) Position closure on the ledger: a SELL of exactly the held
quantity removes the symbol's entry from the positions dict entirely.
(ii) Sell clamping in the engine: when the sized SELL quantity is at least
the held quantity, `_process_signal` executes the SELL at exactly the held
quantity. -/
theorem position_closure_and_sell_clamp :
    (∀ (pt : PortfolioTracker) (sym : String) (pos : Position)
        (price commission_rate slippage_rate : ℚ),
      lookupPos pt.positions sym = some pos →
      lookupPos (executeTrade pt sym Side.SELL pos.quantity price
          commission_rate slippage_rate).positions sym = none) ∧
    (∀ (cfg : SimConfig) (pt : PortfolioTracker) (sig : TradingSignal)
        (price : ℚ) (pos : Position),
      sig.signal = SignalType.SELL →
      lookupPos (updateMarketPrices pt [("BTC-USD", price)]).positions "BTC-USD" = some pos →
      0 < pos.quantity →
      pos.quantity ≤ getPortfolioValue (updateMarketPrices pt [("BTC-USD", price)])
          * cfg.position_size / price →
      processSignal cfg pt sig price
        = executeTrade (updateMarketPrices pt [("BTC-USD", price)]) "BTC-USD" Side.SELL
            pos.quantity price cfg.commission_rate cfg.slippage_rate) := by
  constructor
  · intro pt sym pos price commission_rate slippage_rate hl
    exact processTrade_sell_all_closes pt
      { symbol := sym, side := Side.SELL, quantity := pos.quantity, price := price
        commission := pos.quantity * price * commission_rate
        slippage := pos.quantity * price * slippage_rate } pos rfl hl rfl
  · intro cfg pt sig price pos hsig hl hq hle
    simp only [processSignal, hsig, if_true, reduceCtorEq, if_false]
    rw [hl]
    dsimp only []
    rw [if_neg (not_le.mpr hq), min_eq_right hle]

/-- A one-position portfolio used to witness the closure/clamp theorem. -/
def posW : Position :=
  { symbol := "BTC-USD", quantity := 1, avg_entry_price := 100, current_price := 100 }

/-- Holding 1 unit at 100 with 900 cash. -/
def ptW : PortfolioTracker :=
  { initial_capital := 1000, cash := 900, positions := [("BTC-USD", posW)], trades := []
    portfolio_history := [], peak_value := 1000, max_drawdown := 0
    total_commission := 0, total_slippage := 0 }

/-- C6 witness: selling the whole held unit removes the entry, and an
engine SELL signal sized above the held unit executes at exactly 1 unit. -/
theorem position_closure_and_sell_clamp_witness :
    lookupPos (executeTrade ptW "BTC-USD" Side.SELL posW.quantity 100 0 0).positions
        "BTC-USD" = none ∧
    processSignal defaultSimConfig ptW
        { signal := SignalType.SELL, confidence := 1, price := 100 } 100
      = executeTrade (updateMarketPrices ptW [("BTC-USD", 100)]) "BTC-USD" Side.SELL
          posW.quantity 100 defaultSimConfig.commission_rate defaultSimConfig.slippage_rate :=
  ⟨position_closure_and_sell_clamp.1 ptW "BTC-USD" posW 100 0 0
      (by norm_num [ptW, lookupPos]),
   position_closure_and_sell_clamp.2 defaultSimConfig ptW
      { signal := SignalType.SELL, confidence := 1, price := 100 } 100 posW rfl
      (by norm_num [ptW, posW, updateMarketPrices, updatePrice, lookupPos])
      (by norm_num [posW])
      (by norm_num [ptW, posW, updateMarketPrices, updatePrice, lookupPos, getPortfolioValue,
        positionsValue, Position.market_value, defaultSimConfig])⟩

/-- C4 amended.  An exception escaping `generate_signals` is caught inside
the bar: `step_forward` behaves exactly as if the strategy had returned no
signals — the bar still runs its risk checks, appends its snapshot,
advances the index and returns `True`; no error status exists and the run
is not stopped. -/
theorem strategy_error_step_equals_no_signal_step (cfg : SimConfig) (e : String)
    (st : EngineState) :
    stepForwardWith cfg (Except.error e) st = stepForwardWith cfg (Except.ok []) st := rfl

/-- The engine state at the first bar of a loaded one-bar run. -/
def errEngineState : EngineState :=
  { portfolio := mkPortfolioTracker 10000, is_running := true, is_paused := false
    current_date_index := 0, data := some [100] }

/-- C4 counterexample.  With a strategy that raises on every bar,
`step_forward` still returns `True`, leaves `is_running` true (the loop
continues rather than terminating), advances to the next bar and appends
the bar's snapshot; no `status=ERROR` field exists on the engine at all. -/
theorem strategy_error_does_not_stop_run :
    (stepForward defaultSimConfig (fun _ => Except.error "boom") errEngineState).1 = true ∧
    (stepForward defaultSimConfig (fun _ => Except.error "boom")
        errEngineState).2.is_running = true ∧
    (stepForward defaultSimConfig (fun _ => Except.error "boom")
        errEngineState).2.current_date_index = 1 ∧
    (stepForward defaultSimConfig (fun _ => Except.error "boom")
        errEngineState).2.portfolio.portfolio_history.length
      = errEngineState.portfolio.portfolio_history.length + 1 := by
  refine ⟨?_, ?_, ?_, ?_⟩ <;>
    norm_num [stepForward, stepForwardWith, stepBarPortfolio, checkRiskLimits,
      errEngineState, mkPT_val, updateMarketPrices, updatePrice, lookupPos,
      getPortfolioValue, positionsValue, getDrawdownWith, updatePortfolioHistory,
      mkSnapshot, defaultSimConfig, Position.market_value, List.getD]

end QuantSim